import Mathlib

/-!
Shallow embedding of the Workflow backend (src/backend/{models,database,crud,main}.py):
an employee CRUD plus payroll preview/approve service over a relational store.

The store is modelled as an explicit `DB` state: the three tables are Lean lists
(rows in insertion order, matching SQLite rowid order), and the AUTOINCREMENT
id counters are explicit `next…Id` fields.  Python `float` columns are modelled
exactly as rationals (`ℚ`); the `0.10` deduction rate of `_calculate_pay`
becomes `1/10`.  `month`/`year` are Python ints, modelled as `Int`.
Fallible operations return `Option`/`Bool × DB` exactly as the source functions
return `None`/booleans.
-/

namespace Workflow

/-- Row of the `employees` table (database.py): `id INTEGER PRIMARY KEY
AUTOINCREMENT, name TEXT NOT NULL, role TEXT, department TEXT, salary REAL NOT
NULL, bank_account TEXT, status TEXT NOT NULL DEFAULT 'active',
contract_path TEXT`.  Nullable columns are `Option String`. -/
structure Employee where
  id : Nat
  name : String
  role : Option String
  department : Option String
  salary : ℚ
  bank_account : Option String
  status : String
  contract_path : Option String
deriving Repr, DecidableEq

/-- `EmployeeCreate` (models.py): the Pydantic request body for creation.
`status` is `Optional[str]` with Pydantic default `"active"`, so `none` models
an omitted status field.  Fields inserted into NOT NULL columns are non-null. -/
structure EmployeeCreate where
  name : String
  role : Option String
  department : Option String
  salary : ℚ
  bank_account : Option String
  status : Option String
  contract_path : Option String
deriving Repr, DecidableEq

/-- `EmployeeUpdate` (models.py): every field optional; an absent field is
`none`.  For nullable columns a present field carries an `Option String` value
(a present `none` clears the column); for NOT NULL columns (`name`, `salary`,
`status`) a present field carries a proper value, since a null there would be
rejected by the store's NOT NULL constraint before reaching any row. -/
structure EmployeeUpdate where
  name : Option String
  role : Option (Option String)
  department : Option (Option String)
  salary : Option ℚ
  bank_account : Option (Option String)
  status : Option String
  contract_path : Option (Option String)
deriving Repr, DecidableEq

/-- `PayrollItem` (models.py). -/
structure PayrollItem where
  employee_id : Nat
  name : String
  gross : ℚ
  deductions : ℚ
  net : ℚ
deriving Repr, DecidableEq

/-- `PayrollPreview` (models.py). -/
structure PayrollPreview where
  month : Int
  year : Int
  total_cost : ℚ
  items : List PayrollItem
deriving Repr, DecidableEq

/-- Row of the `payrolls` table.  The `approved_at` wall-clock timestamp is
outside the embedding (no claim mentions it). -/
structure PayrollRow where
  id : Nat
  month : Int
  year : Int
  total_cost : ℚ
deriving Repr, DecidableEq

/-- Row of the `payroll_items` table (its own surrogate `id` column is unused
by the source queries and omitted). -/
structure PayrollItemRow where
  payroll_id : Nat
  employee_id : Nat
  gross : ℚ
  deductions : ℚ
  net : ℚ
deriving Repr, DecidableEq

/-- The whole SQLite database.  AUTOINCREMENT starts fresh ids at 1. -/
structure DB where
  employees : List Employee
  nextEmployeeId : Nat
  payrolls : List PayrollRow
  payroll_items : List PayrollItemRow
  nextPayrollId : Nat
deriving Repr, DecidableEq

/-- The database right after `init_db()`: empty tables. -/
def emptyDB : DB :=
  { employees := [], nextEmployeeId := 1, payrolls := [], payroll_items := [],
    nextPayrollId := 1 }

/-- `crud.get_employee`: `SELECT * FROM employees WHERE id = ?` + `fetchone`. -/
def get_employee (db : DB) (employee_id : Nat) : Option Employee :=
  db.employees.find? (fun e => e.id == employee_id)

/-- `crud.create_employee`: INSERT the seven fields, return `lastrowid`.
Pydantic has already substituted `"active"` for an omitted status. -/
def create_employee (db : DB) (emp : EmployeeCreate) : Nat × DB :=
  let emp_id := db.nextEmployeeId
  (emp_id,
   { db with
       employees := db.employees ++
         [{ id := emp_id, name := emp.name, role := emp.role,
            department := emp.department, salary := emp.salary,
            bank_account := emp.bank_account,
            status := emp.status.getD "active",
            contract_path := emp.contract_path }],
       nextEmployeeId := emp_id + 1 })

/-- The merge step of `crud.update_employee`: start from the current row's
dict and overwrite exactly the fields present in `emp.dict(exclude_unset=True)`.
The row id is not in the SET list and is untouched. -/
def applyUpdate (cur : Employee) (emp : EmployeeUpdate) : Employee :=
  { cur with
      name := emp.name.getD cur.name,
      role := emp.role.getD cur.role,
      department := emp.department.getD cur.department,
      salary := emp.salary.getD cur.salary,
      bank_account := emp.bank_account.getD cur.bank_account,
      status := emp.status.getD cur.status,
      contract_path := emp.contract_path.getD cur.contract_path }

/-- `crud.update_employee`: read the current row (`None` ⇒ return False),
merge, then `UPDATE … WHERE id = ?` writing the merged values to every row
with that id. -/
def update_employee (db : DB) (employee_id : Nat) (emp : EmployeeUpdate) :
    Bool × DB :=
  match get_employee db employee_id with
  | none => (false, db)
  | some current =>
    let data := applyUpdate current emp
    (true,
     { db with
         employees := db.employees.map
           (fun e => if e.id == employee_id then data else e) })

/-- `crud.terminate_employee`:
`UPDATE employees SET status = 'exited' WHERE id = ? AND status != 'exited'`,
returning `rowcount > 0`. -/
def terminate_employee (db : DB) (employee_id : Nat) : Bool × DB :=
  let updated := db.employees.any
    (fun e => e.id == employee_id && e.status != "exited")
  (updated,
   { db with
       employees := db.employees.map
         (fun e => if e.id == employee_id && e.status != "exited"
                   then { e with status := "exited" } else e) })

/-- `crud._calculate_pay`: gross = salary, deductions = 10% of gross,
net = gross − deductions. -/
def _calculate_pay (employee : Employee) : PayrollItem :=
  let gross := employee.salary
  let deductions := gross * (1 / 10)
  let net := gross - deductions
  { employee_id := employee.id, name := employee.name,
    gross := gross, deductions := deductions, net := net }

/-- `crud.preview_payroll`: select rows with status exactly `'active'`,
apply `_calculate_pay` to each, accumulate `total_cost` from 0 as in the
source's loop. -/
def preview_payroll (db : DB) (month year : Int) : PayrollPreview :=
  let actives := db.employees.filter (fun e => e.status == "active")
  let items := actives.map _calculate_pay
  let total_cost := items.foldl (fun acc item => acc + item.net) 0
  { month := month, year := year, total_cost := total_cost, items := items }

/-- `crud.save_payroll`: insert the run row, then one item row per preview
item carrying the new run id; return the new run id. -/
def save_payroll (db : DB) (preview : PayrollPreview) : Nat × DB :=
  let payroll_id := db.nextPayrollId
  (payroll_id,
   { db with
       payrolls := db.payrolls ++
         [{ id := payroll_id, month := preview.month, year := preview.year,
            total_cost := preview.total_cost }],
       payroll_items := db.payroll_items ++
         preview.items.map (fun item =>
           { payroll_id := payroll_id, employee_id := item.employee_id,
             gross := item.gross, deductions := item.deductions,
             net := item.net }),
       nextPayrollId := payroll_id + 1 })

/-- `main.approve_payroll`: preview, then persist via `save_payroll`. -/
def approve_payroll (db : DB) (month year : Int) : Nat × DB :=
  save_payroll db (preview_payroll db month year)

/-- `crud.get_payroll`: `None` if no run row matches; otherwise the run's
stored month/year/total_cost plus its item rows inner-joined with `employees`
on `e.id = pi.employee_id`, each joined row contributing an item whose `name`
is the employee's current stored name. -/
def get_payroll (db : DB) (payroll_id : Nat) : Option PayrollPreview :=
  match db.payrolls.find? (fun p => p.id == payroll_id) with
  | none => none
  | some payroll =>
    let items_rows := db.payroll_items.filter
      (fun row => row.payroll_id == payroll_id)
    let items := items_rows.filterMap (fun row =>
      (db.employees.find? (fun e => e.id == row.employee_id)).map (fun e =>
        ({ employee_id := row.employee_id, name := e.name,
           gross := row.gross, deductions := row.deductions,
           net := row.net } : PayrollItem)))
    some { month := payroll.month, year := payroll.year,
           total_cost := payroll.total_cost, items := items }

/-- The only content constraint Pydantic places on creation bodies beyond
types: `salary: float = Field(..., ge=0.0)`.  No validator restricts `name`
or `status`. -/
def ValidCreate (emp : EmployeeCreate) : Prop := 0 ≤ emp.salary

/-- The only content constraint on update bodies:
`salary: Optional[float] = Field(None, ge=0.0)`. -/
def ValidUpdate (emp : EmployeeUpdate) : Prop :=
  ∀ s, emp.salary = some s → 0 ≤ s

/-- The status vocabulary named by the documentation. -/
def validStatuses : List String := ["active", "on_leave", "exited"]

/-- Database states reachable from `init_db()` through the employee-mutating
public operations, with every status string supplied by a caller constrained
by `P`.  `P := fun _ => True` is plain reachability (the boundary accepts any
string); `P := (· ∈ validStatuses)` restricts callers to the documented
vocabulary. -/
inductive ReachableWith (P : String → Prop) : DB → Prop where
  | init : ReachableWith P emptyDB
  | create (db : DB) (c : EmployeeCreate) :
      ReachableWith P db → (∀ s, c.status = some s → P s) →
      ReachableWith P (create_employee db c).2
  | update (db : DB) (i : Nat) (u : EmployeeUpdate) :
      ReachableWith P db → (∀ s, u.status = some s → P s) →
      ReachableWith P (update_employee db i u).2
  | terminate (db : DB) (i : Nat) :
      ReachableWith P db → ReachableWith P (terminate_employee db i).2

/-- Ids already handed out are below the AUTOINCREMENT counters. -/
def IdInv (db : DB) : Prop :=
  (∀ e ∈ db.employees, e.id < db.nextEmployeeId) ∧
  (∀ p ∈ db.payrolls, p.id < db.nextPayrollId) ∧
  (∀ r ∈ db.payroll_items, r.payroll_id < db.nextPayrollId)

/-! Concrete sample rows and request bodies, used by witnesses and
counterexamples.  The three statuses mirror the spec's test vector
(active / on_leave / exited with salaries 1000 / 2000 / 3000). -/

def empAda : Employee :=
  { id := 1, name := "Ada", role := some "Engineer", department := some "R&D",
    salary := 1000, bank_account := some "GB00", status := "active",
    contract_path := none }

def empBea : Employee :=
  { id := 2, name := "Bea", role := none, department := none, salary := 2000,
    bank_account := none, status := "on_leave", contract_path := none }

def empCal : Employee :=
  { id := 3, name := "Cal", role := none, department := none, salary := 3000,
    bank_account := none, status := "exited", contract_path := none }

def sampleDB : DB :=
  { employees := [empAda, empBea, empCal], nextEmployeeId := 4,
    payrolls := [], payroll_items := [], nextPayrollId := 1 }

def sampleCreate : EmployeeCreate :=
  { name := "Dan", role := some "Clerk", department := none, salary := 1500,
    bank_account := none, status := none, contract_path := none }

def bananaCreate : EmployeeCreate :=
  { name := "Eve", role := none, department := none, salary := 500,
    bank_account := none, status := some "banana", contract_path := none }

def emptyNameCreate : EmployeeCreate :=
  { name := "", role := none, department := none, salary := 0,
    bank_account := none, status := none, contract_path := none }

def emptyUpdate : EmployeeUpdate :=
  { name := none, role := none, department := none, salary := none,
    bank_account := none, status := none, contract_path := none }

/-- The sample database right after approving the January 2025 payroll. -/
def sampleApproved : DB := (approve_payroll sampleDB 1 2025).2

def renameUpdate : EmployeeUpdate :=
  { name := some "Ada Lovelace", role := none, department := none,
    salary := none, bank_account := none, status := none,
    contract_path := none }

/-! Helper lemmas about the list combinators the operations are built from. -/

theorem foldl_add_item_net (l : List PayrollItem) (a : ℚ) :
    l.foldl (fun acc item => acc + item.net) a =
      a + (l.map (fun item => item.net)).sum := by
  induction l generalizing a with
  | nil => simp
  | cons x xs ih => simp [ih, add_assoc]

theorem filter_id_eq_nil (l : List Employee) (i : Nat)
    (h : ∀ x ∈ l, x.id ≠ i) :
    l.filter (fun x => x.id == i) = [] := by
  rw [List.filter_eq_nil_iff]
  intro x hx
  simpa using h x hx

theorem filter_id_singleton (l : List Employee)
    (hl : (l.map (fun e => e.id)).Nodup) (e : Employee) (he : e ∈ l) :
    l.filter (fun x => x.id == e.id) = [e] := by
  induction l with
  | nil => cases he
  | cons x xs ih =>
    rw [List.map_cons, List.nodup_cons] at hl
    rcases List.mem_cons.mp he with rfl | hmem
    · have hnil : xs.filter (fun y => y.id == e.id) = [] := by
        apply filter_id_eq_nil
        intro y hy hid
        exact hl.1 (hid ▸ List.mem_map_of_mem (fun z => z.id) hy)
      simp [List.filter_cons, hnil]
    · have hx : x.id ≠ e.id := by
        intro hid
        exact hl.1 (hid ▸ List.mem_map_of_mem (fun z => z.id) hmem)
      simp [List.filter_cons, hx, ih hl.2 hmem]

theorem preview_items (db : DB) (m y : Int) :
    (preview_payroll db m y).items =
      (db.employees.filter (fun e => e.status == "active")).map
        _calculate_pay := rfl

theorem preview_total (db : DB) (m y : Int) :
    (preview_payroll db m y).total_cost =
      ((preview_payroll db m y).items.map (fun item => item.net)).sum := by
  show ((db.employees.filter (fun e => e.status == "active")).map
      _calculate_pay).foldl (fun acc item => acc + item.net) 0 = _
  rw [foldl_add_item_net, zero_add]
  rfl

/-- C1: `previewPayroll` carries month/year through, contains exactly one
item per employee with status exactly `active` (non-active employees
contribute no item), each item has gross = salary, deductions = 10% of
gross, net = gross − deductions, and total_cost is the sum of item nets. -/
theorem C1_preview_payroll (db : DB) (m y : Int)
    (hids : (db.employees.map (fun e => e.id)).Nodup) :
    (preview_payroll db m y).month = m ∧
    (preview_payroll db m y).year = y ∧
    (∀ e ∈ db.employees, e.status = "active" →
      ∃ item : PayrollItem,
        (preview_payroll db m y).items.filter
            (fun x => x.employee_id == e.id) = [item] ∧
        item.gross = e.salary ∧ item.deductions = item.gross * (1 / 10) ∧
        item.net = item.gross - item.deductions) ∧
    (∀ e ∈ db.employees, e.status ≠ "active" →
      (preview_payroll db m y).items.filter
          (fun x => x.employee_id == e.id) = []) ∧
    (∀ item ∈ (preview_payroll db m y).items,
      ∃ e ∈ db.employees, e.status = "active" ∧ item.employee_id = e.id) ∧
    (preview_payroll db m y).total_cost =
      ((preview_payroll db m y).items.map (fun item => item.net)).sum := by
  have hsub : ((db.employees.filter (fun e => e.status == "active")).map
      (fun e => e.id)).Sublist (db.employees.map (fun e => e.id)) :=
    (List.filter_sublist db.employees).map (fun e => e.id)
  have hacts : ((db.employees.filter (fun e => e.status == "active")).map
      (fun e => e.id)).Nodup := List.Nodup.sublist hsub hids
  refine ⟨rfl, rfl, ?_, ?_, ?_, preview_total db m y⟩
  · intro e he hst
    refine ⟨_calculate_pay e, ?_, rfl, rfl, rfl⟩
    rw [preview_items, List.filter_map]
    have hmem : e ∈ db.employees.filter (fun e => e.status == "active") :=
      List.mem_filter.mpr ⟨he, by simp [hst]⟩
    have hfe : List.filter
        ((fun x => x.employee_id == e.id) ∘ _calculate_pay)
        (db.employees.filter (fun e => e.status == "active")) =
        List.filter (fun x => x.id == e.id)
        (db.employees.filter (fun e => e.status == "active")) := rfl
    rw [hfe, filter_id_singleton _ hacts e hmem]
    rfl
  · intro e he hst
    rw [preview_items, List.filter_map]
    have hfe : List.filter
        ((fun x => x.employee_id == e.id) ∘ _calculate_pay)
        (db.employees.filter (fun e => e.status == "active")) =
        List.filter (fun x => x.id == e.id)
        (db.employees.filter (fun e => e.status == "active")) := rfl
    rw [hfe, filter_id_eq_nil]
    · rfl
    · intro x hx hid
      have hxe : x = e :=
        List.inj_on_of_nodup_map hids (List.mem_filter.mp hx).1 he hid
    -- x active but e not active
      have := (List.mem_filter.mp hx).2
      subst hxe
      simp at this
      exact hst this
  · intro item hitem
    rw [preview_items] at hitem
    rcases List.mem_map.mp hitem with ⟨x, hx, rfl⟩
    rcases List.mem_filter.mp hx with ⟨hxmem, hxact⟩
    exact ⟨x, hxmem, by simpa using hxact, rfl⟩

/-- Witness for C1 at the spec's own test vector (Ada active 1000,
Bea on_leave 2000, Cal exited 3000). -/
theorem C1_preview_payroll_witness :
    ((sampleDB.employees.map (fun e => e.id)).Nodup) ∧
    ((preview_payroll sampleDB 1 2025).month = 1 ∧
    (preview_payroll sampleDB 1 2025).year = 2025 ∧
    (∀ e ∈ sampleDB.employees, e.status = "active" →
      ∃ item : PayrollItem,
        (preview_payroll sampleDB 1 2025).items.filter
            (fun x => x.employee_id == e.id) = [item] ∧
        item.gross = e.salary ∧ item.deductions = item.gross * (1 / 10) ∧
        item.net = item.gross - item.deductions) ∧
    (∀ e ∈ sampleDB.employees, e.status ≠ "active" →
      (preview_payroll sampleDB 1 2025).items.filter
          (fun x => x.employee_id == e.id) = []) ∧
    (∀ item ∈ (preview_payroll sampleDB 1 2025).items,
      ∃ e ∈ sampleDB.employees, e.status = "active" ∧
        item.employee_id = e.id) ∧
    (preview_payroll sampleDB 1 2025).total_cost =
      ((preview_payroll sampleDB 1 2025).items.map
        (fun item => item.net)).sum) :=
  ⟨by decide, C1_preview_payroll sampleDB 1 2025 (by decide)⟩

theorem setExited_eq_self (e : Employee) (h : e.status = "exited") :
    { e with status := "exited" } = e := by
  rw [← h]

/-- C4: `terminateEmployee` returns true exactly when an employee with the
given id exists with status ≠ `exited`; every row with that id ends with
status `exited` (so an already-exited row keeps it), and rows with other
ids are untouched. -/
theorem C4_terminate_employee (db : DB) (i : Nat) :
    ((terminate_employee db i).1 = true ↔
      ∃ e ∈ db.employees, e.id = i ∧ e.status ≠ "exited") ∧
    (terminate_employee db i).2.employees.length = db.employees.length ∧
    (∀ n (h : n < db.employees.length),
      (terminate_employee db i).2.employees[n]? =
        some (if db.employees[n].id = i
              then { db.employees[n] with status := "exited" }
              else db.employees[n])) := by
  refine ⟨?_, by simp [terminate_employee], ?_⟩
  · show (db.employees.any fun e => e.id == i && e.status != "exited") = true ↔ _
    rw [List.any_eq_true]
    constructor
    · rintro ⟨e, he, hp⟩
      simp only [Bool.and_eq_true, beq_iff_eq, bne_iff_ne, ne_eq] at hp
      exact ⟨e, he, hp⟩
    · rintro ⟨e, he, h1, h2⟩
      exact ⟨e, he, by simp [h1, h2]⟩
  · intro n h
    show (db.employees.map fun e =>
        if e.id == i && e.status != "exited"
        then { e with status := "exited" } else e)[n]? = _
    rw [List.getElem?_map, List.getElem?_eq_getElem h, Option.map_some']
    refine congrArg some ?_
    by_cases hid : db.employees[n].id = i
    · by_cases hst : db.employees[n].status = "exited"
      · rw [if_pos hid, setExited_eq_self _ hst]
        simp [hst]
      · rw [if_pos hid]
        simp [hid, hst]
    · rw [if_neg hid]
      simp [hid]

/-- Witness for C4: terminating Ada (id 1, active) in the sample database. -/
theorem C4_terminate_employee_witness :
    ((terminate_employee sampleDB 1).1 = true ↔
      ∃ e ∈ sampleDB.employees, e.id = 1 ∧ e.status ≠ "exited") ∧
    (terminate_employee sampleDB 1).2.employees.length =
      sampleDB.employees.length ∧
    (∀ n (h : n < sampleDB.employees.length),
      (terminate_employee sampleDB 1).2.employees[n]? =
        some (if sampleDB.employees[n].id = 1
              then { sampleDB.employees[n] with status := "exited" }
              else sampleDB.employees[n])) :=
  C4_terminate_employee sampleDB 1

/-- C10: updating an existing employee with the empty partial field set
succeeds and leaves the database exactly as it was. -/
theorem C10_update_employee_empty (db : DB) (i : Nat) (cur : Employee)
    (hcur : get_employee db i = some cur)
    (hids : (db.employees.map (fun e => e.id)).Nodup) :
    (update_employee db i emptyUpdate).1 = true ∧
    (update_employee db i emptyUpdate).2 = db := by
  have hmem : cur ∈ db.employees := List.mem_of_find?_eq_some hcur
  have hcid : cur.id = i := by simpa using List.find?_some hcur
  have hdata : applyUpdate cur emptyUpdate = cur := rfl
  constructor
  · simp [update_employee, hcur]
  · show (update_employee db i emptyUpdate).2 = db
    simp only [update_employee, hcur, hdata]
    have hmap : (db.employees.map fun e => if e.id == i then cur else e) =
        db.employees := by
      have := List.map_congr_left (l := db.employees)
        (g := fun e => e) (f := fun e => if e.id == i then cur else e) ?_
      · simpa using this
      · intro e he
        by_cases hid : e.id = i
        · have : e = cur :=
            List.inj_on_of_nodup_map hids he hmem (by rw [hid, hcid])
          simp [hid, this]
        · simp [hid]
    rw [hmap]

/-- Witness for C10: the empty update applied to Ada in the sample DB. -/
theorem C10_update_employee_empty_witness :
    get_employee sampleDB 1 = some empAda ∧
    (sampleDB.employees.map (fun e => e.id)).Nodup ∧
    ((update_employee sampleDB 1 emptyUpdate).1 = true ∧
      (update_employee sampleDB 1 emptyUpdate).2 = sampleDB) :=
  ⟨by decide, by decide,
    C10_update_employee_empty sampleDB 1 empAda (by decide) (by decide)⟩

/-- C5: `updateEmployee` returns false (and changes nothing) exactly when the
id matches no employee; on an existing employee it succeeds, the row keeps its
id, every field present in the partial set takes the supplied value, every
absent field keeps its prior value, and rows with other ids are untouched. -/
theorem C5_update_employee (db : DB) (i : Nat) (u : EmployeeUpdate) :
    ((update_employee db i u).1 = false ↔ get_employee db i = none) ∧
    ((update_employee db i u).1 = false → (update_employee db i u).2 = db) ∧
    (∀ cur, get_employee db i = some cur →
      (update_employee db i u).1 = true ∧
      (∃ cur2, get_employee (update_employee db i u).2 i = some cur2 ∧
        cur2.id = cur.id ∧
        (∀ v, u.name = some v → cur2.name = v) ∧
        (u.name = none → cur2.name = cur.name) ∧
        (∀ v, u.role = some v → cur2.role = v) ∧
        (u.role = none → cur2.role = cur.role) ∧
        (∀ v, u.department = some v → cur2.department = v) ∧
        (u.department = none → cur2.department = cur.department) ∧
        (∀ v, u.salary = some v → cur2.salary = v) ∧
        (u.salary = none → cur2.salary = cur.salary) ∧
        (∀ v, u.bank_account = some v → cur2.bank_account = v) ∧
        (u.bank_account = none → cur2.bank_account = cur.bank_account) ∧
        (∀ v, u.status = some v → cur2.status = v) ∧
        (u.status = none → cur2.status = cur.status) ∧
        (∀ v, u.contract_path = some v → cur2.contract_path = v) ∧
        (u.contract_path = none → cur2.contract_path = cur.contract_path)) ∧
      (∀ n (h : n < db.employees.length), db.employees[n].id ≠ i →
        (update_employee db i u).2.employees[n]? =
          some db.employees[n])) := by
  refine ⟨?_, ?_, ?_⟩
  · cases hg : get_employee db i with
    | none => simp [update_employee, hg]
    | some cur => simp [update_employee, hg]
  · intro hfalse
    cases hg : get_employee db i with
    | none => simp [update_employee, hg]
    | some cur => rw [update_employee, hg] at hfalse; simp at hfalse
  · intro cur hcur
    have hcid : cur.id = i := by simpa using List.find?_some hcur
    refine ⟨by simp [update_employee, hcur], ?_, ?_⟩
    · refine ⟨applyUpdate cur u, ?_, rfl, ?_⟩
      · show List.find? _ ((update_employee db i u).2.employees) = _
        have hemp : (update_employee db i u).2.employees =
            db.employees.map
              (fun e => if e.id == i then applyUpdate cur u else e) := by
          simp [update_employee, hcur]
        rw [hemp, List.find?_map]
        have hpf : ((fun e : Employee => e.id == i) ∘
            (fun e => if e.id == i then applyUpdate cur u else e)) =
            (fun e : Employee => e.id == i) := by
          funext e
          by_cases hid : e.id = i
          · simp [Function.comp, hid, applyUpdate, hcid]
          · simp [Function.comp, hid]
        have hcur2 : List.find? (fun e : Employee => e.id == i)
            db.employees = some cur := hcur
        rw [hpf, hcur2, Option.map_some']
        simp [hcid]
      · refine ⟨?_, ?_, ?_, ?_, ?_, ?_, ?_, ?_, ?_, ?_, ?_, ?_, ?_, ?_⟩ <;>
          first
            | (intro v hv; simp [applyUpdate, hv])
            | (intro hv; simp [applyUpdate, hv])
    · intro n h hne
      have hemp : (update_employee db i u).2.employees =
          db.employees.map
            (fun e => if e.id == i then applyUpdate cur u else e) := by
        simp [update_employee, hcur]
      rw [hemp, List.getElem?_map, List.getElem?_eq_getElem h,
        Option.map_some']
      simp [hne]

/-- Witness for C5: renaming Ada (id 1) in the sample database. -/
theorem C5_update_employee_witness :
    ((update_employee sampleDB 1 renameUpdate).1 = false ↔
      get_employee sampleDB 1 = none) ∧
    ((update_employee sampleDB 1 renameUpdate).1 = false →
      (update_employee sampleDB 1 renameUpdate).2 = sampleDB) ∧
    (∀ cur, get_employee sampleDB 1 = some cur →
      (update_employee sampleDB 1 renameUpdate).1 = true ∧
      (∃ cur2, get_employee (update_employee sampleDB 1 renameUpdate).2 1 =
          some cur2 ∧
        cur2.id = cur.id ∧
        (∀ v, renameUpdate.name = some v → cur2.name = v) ∧
        (renameUpdate.name = none → cur2.name = cur.name) ∧
        (∀ v, renameUpdate.role = some v → cur2.role = v) ∧
        (renameUpdate.role = none → cur2.role = cur.role) ∧
        (∀ v, renameUpdate.department = some v → cur2.department = v) ∧
        (renameUpdate.department = none → cur2.department = cur.department) ∧
        (∀ v, renameUpdate.salary = some v → cur2.salary = v) ∧
        (renameUpdate.salary = none → cur2.salary = cur.salary) ∧
        (∀ v, renameUpdate.bank_account = some v → cur2.bank_account = v) ∧
        (renameUpdate.bank_account = none →
          cur2.bank_account = cur.bank_account) ∧
        (∀ v, renameUpdate.status = some v → cur2.status = v) ∧
        (renameUpdate.status = none → cur2.status = cur.status) ∧
        (∀ v, renameUpdate.contract_path = some v → cur2.contract_path = v) ∧
        (renameUpdate.contract_path = none →
          cur2.contract_path = cur.contract_path)) ∧
      (∀ n (h : n < sampleDB.employees.length),
        sampleDB.employees[n].id ≠ 1 →
        (update_employee sampleDB 1 renameUpdate).2.employees[n]? =
          some sampleDB.employees[n])) :=
  C5_update_employee sampleDB 1 renameUpdate

/-- C6: `createEmployee` assigns an id unused by any stored employee, and
`getEmployee` on that id returns a record equal to the input on every
supplied field, with status defaulting to `active` when it was omitted. -/
theorem C6_create_employee (db : DB) (c : EmployeeCreate)
    (hinv : ∀ e ∈ db.employees, e.id < db.nextEmployeeId) :
    (∀ e ∈ db.employees, e.id ≠ (create_employee db c).1) ∧
    (∃ emp, get_employee (create_employee db c).2 (create_employee db c).1 =
        some emp ∧
      emp.id = (create_employee db c).1 ∧
      emp.name = c.name ∧ emp.role = c.role ∧
      emp.department = c.department ∧ emp.salary = c.salary ∧
      emp.bank_account = c.bank_account ∧
      emp.contract_path = c.contract_path ∧
      (∀ s, c.status = some s → emp.status = s) ∧
      (c.status = none → emp.status = "active")) := by
  constructor
  · intro e he heq
    have hlt := hinv e he
    have : e.id = db.nextEmployeeId := heq
    omega
  · have hget : get_employee (create_employee db c).2
        (create_employee db c).1 =
        some { id := db.nextEmployeeId, name := c.name, role := c.role,
               department := c.department, salary := c.salary,
               bank_account := c.bank_account,
               status := c.status.getD "active",
               contract_path := c.contract_path } := by
      show List.find? (fun e => e.id == db.nextEmployeeId)
          (db.employees ++
            [{ id := db.nextEmployeeId, name := c.name, role := c.role,
               department := c.department, salary := c.salary,
               bank_account := c.bank_account,
               status := c.status.getD "active",
               contract_path := c.contract_path }]) = _
      rw [List.find?_append]
      have hnone : List.find? (fun e : Employee => e.id == db.nextEmployeeId)
          db.employees = none := by
        rw [List.find?_eq_none]
        intro x hx
        simpa using Nat.ne_of_lt (hinv x hx)
      rw [hnone]
      simp
    refine ⟨_, hget, rfl, rfl, rfl, rfl, rfl, rfl, rfl, ?_, ?_⟩
    · intro s hs
      show c.status.getD "active" = s
      rw [hs]
      rfl
    · intro hs
      show c.status.getD "active" = "active"
      rw [hs]
      rfl

/-- Witness for C6: creating Dan (status omitted) in the sample database. -/
theorem C6_create_employee_witness :
    (∀ e ∈ sampleDB.employees, e.id < sampleDB.nextEmployeeId) ∧
    ((∀ e ∈ sampleDB.employees,
        e.id ≠ (create_employee sampleDB sampleCreate).1) ∧
     (∃ emp, get_employee (create_employee sampleDB sampleCreate).2
          (create_employee sampleDB sampleCreate).1 = some emp ∧
        emp.id = (create_employee sampleDB sampleCreate).1 ∧
        emp.name = sampleCreate.name ∧ emp.role = sampleCreate.role ∧
        emp.department = sampleCreate.department ∧
        emp.salary = sampleCreate.salary ∧
        emp.bank_account = sampleCreate.bank_account ∧
        emp.contract_path = sampleCreate.contract_path ∧
        (∀ s, sampleCreate.status = some s → emp.status = s) ∧
        (sampleCreate.status = none → emp.status = "active"))) :=
  ⟨by decide, C6_create_employee sampleDB sampleCreate (by decide)⟩

theorem find?_payroll_eq_none (l : List PayrollRow) (i : Nat)
    (h : ∀ p ∈ l, p.id ≠ i) :
    l.find? (fun p => p.id == i) = none := by
  rw [List.find?_eq_none]
  intro p hp
  simpa using h p hp

/-- C2: `approvePayroll` persists a run row carrying the preview's month,
year and total_cost, stores item rows matching the preview's items exactly
(same employee_id/gross/deductions/net, in order), returns the new run's id,
and `getPayrollRun` on that id returns a run with the persisted total_cost. -/
theorem C2_approve_payroll (db : DB) (m y : Int)
    (hp : ∀ p ∈ db.payrolls, p.id < db.nextPayrollId)
    (hi : ∀ r ∈ db.payroll_items, r.payroll_id < db.nextPayrollId) :
    ((approve_payroll db m y).2.payrolls.find?
        (fun p => p.id == (approve_payroll db m y).1) =
      some { id := (approve_payroll db m y).1, month := m, year := y,
             total_cost := (preview_payroll db m y).total_cost }) ∧
    (((approve_payroll db m y).2.payroll_items.filter
        (fun r => r.payroll_id == (approve_payroll db m y).1)).map
        (fun r => (r.employee_id, r.gross, r.deductions, r.net)) =
      (preview_payroll db m y).items.map
        (fun item => (item.employee_id, item.gross, item.deductions,
          item.net))) ∧
    (∃ run, get_payroll (approve_payroll db m y).2
        (approve_payroll db m y).1 = some run ∧
      run.total_cost = (preview_payroll db m y).total_cost ∧
      run.month = m ∧ run.year = y) := by
  have hfind : (approve_payroll db m y).2.payrolls.find?
      (fun p => p.id == (approve_payroll db m y).1) =
      some { id := (approve_payroll db m y).1, month := m, year := y,
             total_cost := (preview_payroll db m y).total_cost } := by
    show (db.payrolls ++
        [({ id := db.nextPayrollId, month := m, year := y,
            total_cost := (preview_payroll db m y).total_cost } :
          PayrollRow)]).find?
        (fun p => p.id == db.nextPayrollId) = _
    rw [List.find?_append,
      find?_payroll_eq_none db.payrolls db.nextPayrollId
        (fun p hmem => Nat.ne_of_lt (hp p hmem)), Option.none_or]
    simp
    rfl
  refine ⟨hfind, ?_, ?_⟩
  · show ((db.payroll_items ++
        (preview_payroll db m y).items.map (fun item =>
          ({ payroll_id := db.nextPayrollId,
             employee_id := item.employee_id, gross := item.gross,
             deductions := item.deductions,
             net := item.net } : PayrollItemRow))).filter
        (fun r => r.payroll_id == db.nextPayrollId)).map
        (fun r => (r.employee_id, r.gross, r.deductions, r.net)) = _
    rw [List.filter_append]
    have hold : db.payroll_items.filter
        (fun r => r.payroll_id == db.nextPayrollId) = [] := by
      rw [List.filter_eq_nil_iff]
      intro r hr
      simpa using Nat.ne_of_lt (hi r hr)
    have hnew : ((preview_payroll db m y).items.map (fun item =>
        ({ payroll_id := db.nextPayrollId,
           employee_id := item.employee_id, gross := item.gross,
           deductions := item.deductions,
           net := item.net } : PayrollItemRow))).filter
        (fun r => r.payroll_id == db.nextPayrollId) =
        (preview_payroll db m y).items.map (fun item =>
        ({ payroll_id := db.nextPayrollId,
           employee_id := item.employee_id, gross := item.gross,
           deductions := item.deductions,
           net := item.net } : PayrollItemRow)) := by
      rw [List.filter_eq_self]
      intro r hr
      rcases List.mem_map.mp hr with ⟨item, _, rfl⟩
      simp
    rw [hold, hnew, List.nil_append, List.map_map]
    rfl
  · rw [get_payroll, hfind]
    exact ⟨_, rfl, rfl, rfl, rfl⟩

/-- Witness for C2: approving January 2025 payroll on the sample database. -/
theorem C2_approve_payroll_witness :
    (∀ p ∈ sampleDB.payrolls, p.id < sampleDB.nextPayrollId) ∧
    (∀ r ∈ sampleDB.payroll_items, r.payroll_id < sampleDB.nextPayrollId) ∧
    (((approve_payroll sampleDB 1 2025).2.payrolls.find?
        (fun p => p.id == (approve_payroll sampleDB 1 2025).1) =
      some { id := (approve_payroll sampleDB 1 2025).1, month := 1,
             year := 2025,
             total_cost := (preview_payroll sampleDB 1 2025).total_cost }) ∧
    (((approve_payroll sampleDB 1 2025).2.payroll_items.filter
        (fun r => r.payroll_id == (approve_payroll sampleDB 1 2025).1)).map
        (fun r => (r.employee_id, r.gross, r.deductions, r.net)) =
      (preview_payroll sampleDB 1 2025).items.map
        (fun item => (item.employee_id, item.gross, item.deductions,
          item.net))) ∧
    (∃ run, get_payroll (approve_payroll sampleDB 1 2025).2
        (approve_payroll sampleDB 1 2025).1 = some run ∧
      run.total_cost = (preview_payroll sampleDB 1 2025).total_cost ∧
      run.month = 1 ∧ run.year = 2025)) :=
  ⟨by decide, by decide,
    C2_approve_payroll sampleDB 1 2025 (by decide) (by decide)⟩

/-- C3: approving the same month/year twice returns two distinct run ids,
both retrievable through `getPayrollRun`, and the second approval leaves the
first run's stored row and item rows exactly as they were. -/
theorem C3_approve_payroll_twice (db : DB) (m y : Int)
    (hp : ∀ p ∈ db.payrolls, p.id < db.nextPayrollId) :
    (approve_payroll db m y).1 ≠
      (approve_payroll (approve_payroll db m y).2 m y).1 ∧
    (get_payroll (approve_payroll (approve_payroll db m y).2 m y).2
      (approve_payroll db m y).1).isSome = true ∧
    (get_payroll (approve_payroll (approve_payroll db m y).2 m y).2
      (approve_payroll (approve_payroll db m y).2 m y).1).isSome = true ∧
    ((approve_payroll (approve_payroll db m y).2 m y).2.payrolls.find?
        (fun p => p.id == (approve_payroll db m y).1) =
      (approve_payroll db m y).2.payrolls.find?
        (fun p => p.id == (approve_payroll db m y).1)) ∧
    ((approve_payroll (approve_payroll db m y).2 m y).2.payroll_items.filter
        (fun r => r.payroll_id == (approve_payroll db m y).1) =
      (approve_payroll db m y).2.payroll_items.filter
        (fun r => r.payroll_id == (approve_payroll db m y).1)) := by
  have hr1 : (approve_payroll db m y).1 = db.nextPayrollId := rfl
  have hr2 : (approve_payroll (approve_payroll db m y).2 m y).1 =
      db.nextPayrollId + 1 := rfl
  have hp1 : ∀ p ∈ (approve_payroll db m y).2.payrolls,
      p.id < (approve_payroll db m y).2.nextPayrollId := by
    intro p hmem
    have hmem2 : p ∈ db.payrolls ++
        [({ id := db.nextPayrollId, month := m, year := y,
            total_cost := (preview_payroll db m y).total_cost } :
          PayrollRow)] := hmem
    rcases List.mem_append.mp hmem2 with hold | hnew
    · exact Nat.lt_succ_of_lt (hp p hold)
    · rcases List.mem_singleton.mp hnew with rfl
      exact Nat.lt_succ_self _
  have hfind1 : (approve_payroll db m y).2.payrolls.find?
      (fun p => p.id == (approve_payroll db m y).1) =
      some { id := db.nextPayrollId, month := m, year := y,
             total_cost := (preview_payroll db m y).total_cost } := by
    show (db.payrolls ++
        [({ id := db.nextPayrollId, month := m, year := y,
            total_cost := (preview_payroll db m y).total_cost } :
          PayrollRow)]).find? (fun p => p.id == db.nextPayrollId) = _
    rw [List.find?_append,
      find?_payroll_eq_none db.payrolls db.nextPayrollId
        (fun p hmem => Nat.ne_of_lt (hp p hmem)), Option.none_or]
    simp
  have hfind12 : (approve_payroll (approve_payroll db m y).2 m y).2.payrolls.find?
      (fun p => p.id == (approve_payroll db m y).1) =
      some { id := db.nextPayrollId, month := m, year := y,
             total_cost := (preview_payroll db m y).total_cost } := by
    show ((approve_payroll db m y).2.payrolls ++
        [({ id := (approve_payroll db m y).2.nextPayrollId, month := m,
            year := y,
            total_cost :=
              (preview_payroll (approve_payroll db m y).2 m y).total_cost } :
          PayrollRow)]).find? (fun p => p.id == (approve_payroll db m y).1) = _
    rw [List.find?_append, hfind1, Option.or_some]
  refine ⟨by rw [hr1, hr2]; omega, ?_, ?_, hfind12.trans hfind1.symm, ?_⟩
  · rw [get_payroll, hfind12]
    rfl
  · have hfind2 : (approve_payroll (approve_payroll db m y).2 m y).2.payrolls.find?
        (fun p => p.id == (approve_payroll (approve_payroll db m y).2 m y).1) =
        some { id := (approve_payroll db m y).2.nextPayrollId, month := m,
               year := y,
               total_cost :=
                 (preview_payroll (approve_payroll db m y).2 m y).total_cost } := by
      show ((approve_payroll db m y).2.payrolls ++
          [({ id := (approve_payroll db m y).2.nextPayrollId, month := m,
              year := y,
              total_cost :=
                (preview_payroll (approve_payroll db m y).2 m y).total_cost } :
            PayrollRow)]).find?
          (fun p => p.id == (approve_payroll db m y).2.nextPayrollId) = _
      rw [List.find?_append,
        find?_payroll_eq_none _ _
          (fun p hmem => Nat.ne_of_lt (hp1 p hmem)), Option.none_or]
      simp
    rw [get_payroll, hfind2]
    rfl
  · show ((approve_payroll db m y).2.payroll_items ++
        (preview_payroll (approve_payroll db m y).2 m y).items.map (fun item =>
          ({ payroll_id := (approve_payroll db m y).2.nextPayrollId,
             employee_id := item.employee_id, gross := item.gross,
             deductions := item.deductions,
             net := item.net } : PayrollItemRow))).filter
        (fun r => r.payroll_id == (approve_payroll db m y).1) = _
    rw [List.filter_append]
    have hnew : ((preview_payroll (approve_payroll db m y).2 m y).items.map
        (fun item =>
          ({ payroll_id := (approve_payroll db m y).2.nextPayrollId,
             employee_id := item.employee_id, gross := item.gross,
             deductions := item.deductions,
             net := item.net } : PayrollItemRow))).filter
        (fun r => r.payroll_id == (approve_payroll db m y).1) = [] := by
      rw [List.filter_eq_nil_iff]
      intro r hr
      rcases List.mem_map.mp hr with ⟨item, _, rfl⟩
      rw [hr1]
      have hnext : (approve_payroll db m y).2.nextPayrollId =
          db.nextPayrollId + 1 := rfl
      simp only [hnext, beq_iff_eq]
      omega
    rw [hnew, List.append_nil]

/-- Witness for C3: approving January 2025 twice on the sample database. -/
theorem C3_approve_payroll_twice_witness :
    (∀ p ∈ sampleDB.payrolls, p.id < sampleDB.nextPayrollId) ∧
    ((approve_payroll sampleDB 1 2025).1 ≠
      (approve_payroll (approve_payroll sampleDB 1 2025).2 1 2025).1 ∧
    (get_payroll (approve_payroll (approve_payroll sampleDB 1 2025).2 1 2025).2
      (approve_payroll sampleDB 1 2025).1).isSome = true ∧
    (get_payroll (approve_payroll (approve_payroll sampleDB 1 2025).2 1 2025).2
      (approve_payroll (approve_payroll sampleDB 1 2025).2 1 2025).1).isSome =
        true ∧
    ((approve_payroll (approve_payroll sampleDB 1 2025).2 1 2025).2.payrolls.find?
        (fun p => p.id == (approve_payroll sampleDB 1 2025).1) =
      (approve_payroll sampleDB 1 2025).2.payrolls.find?
        (fun p => p.id == (approve_payroll sampleDB 1 2025).1)) ∧
    ((approve_payroll
        (approve_payroll sampleDB 1 2025).2 1 2025).2.payroll_items.filter
        (fun r => r.payroll_id == (approve_payroll sampleDB 1 2025).1) =
      (approve_payroll sampleDB 1 2025).2.payroll_items.filter
        (fun r => r.payroll_id == (approve_payroll sampleDB 1 2025).1))) :=
  ⟨by decide, C3_approve_payroll_twice sampleDB 1 2025 (by decide)⟩

theorem join_items_fields (db : DB) (rows : List PayrollItemRow)
    (h : ∀ r ∈ rows, ∃ e ∈ db.employees, e.id = r.employee_id) :
    (rows.filterMap (fun row =>
      (db.employees.find? (fun e => e.id == row.employee_id)).map (fun e =>
        ({ employee_id := row.employee_id, name := e.name,
           gross := row.gross, deductions := row.deductions,
           net := row.net } : PayrollItem)))).map
      (fun item => (item.employee_id, item.gross, item.deductions,
        item.net)) =
    rows.map (fun r => (r.employee_id, r.gross, r.deductions, r.net)) := by
  induction rows with
  | nil => rfl
  | cons r rs ih =>
    obtain ⟨e, he, hid⟩ := h r (List.mem_cons_self r rs)
    have hsome : (db.employees.find?
        (fun x => x.id == r.employee_id)).isSome = true :=
      List.find?_isSome.mpr ⟨e, he, by simp [hid]⟩
    obtain ⟨e2, hfind⟩ := Option.isSome_iff_exists.mp hsome
    rw [List.filterMap_cons, hfind]
    simp only [Option.map_some', List.map_cons]
    rw [ih (fun x hx => h x (List.mem_cons_of_mem r hx))]

/-- C7: `getPayrollRun` returns none exactly when no run has the requested
id; on a stored run it returns the snapshot month, year and total_cost, its
items match the stored item rows field-for-field (given that each referenced
employee exists, which every approval guarantees since employees are never
deleted), and every returned item's name is the referenced employee's
current stored name at read time. -/
theorem C7_get_payroll (db : DB) (pid : Nat) :
    (get_payroll db pid = none ↔ ∀ p ∈ db.payrolls, p.id ≠ pid) ∧
    (∀ run, db.payrolls.find? (fun p => p.id == pid) = some run →
      ∃ res, get_payroll db pid = some res ∧
        res.month = run.month ∧ res.year = run.year ∧
        res.total_cost = run.total_cost ∧
        ((∀ r ∈ db.payroll_items, r.payroll_id = pid →
            ∃ e ∈ db.employees, e.id = r.employee_id) →
          res.items.map (fun item =>
            (item.employee_id, item.gross, item.deductions, item.net)) =
          (db.payroll_items.filter (fun r => r.payroll_id == pid)).map
            (fun r => (r.employee_id, r.gross, r.deductions, r.net))) ∧
        (∀ item ∈ res.items, ∃ e ∈ db.employees,
          e.id = item.employee_id ∧ item.name = e.name)) := by
  constructor
  · cases hfind : db.payrolls.find? (fun p => p.id == pid) with
    | none =>
      rw [List.find?_eq_none] at hfind
      constructor
      · intro _ p hp hpid
        exact hfind p hp (by simp [hpid])
      · intro _
        rw [get_payroll]
        have hfind2 : db.payrolls.find? (fun p => p.id == pid) = none := by
          rw [List.find?_eq_none]
          exact hfind
        rw [hfind2]
    | some run =>
      constructor
      · intro hnone
        rw [get_payroll, hfind] at hnone
        simp at hnone
      · intro hall
        have hmem := List.mem_of_find?_eq_some hfind
        have hpid : run.id = pid := by simpa using List.find?_some hfind
        exact absurd hpid (hall run hmem)
  · intro run hfind
    rw [get_payroll, hfind]
    refine ⟨_, rfl, rfl, rfl, rfl, ?_, ?_⟩
    · intro hemp
      exact join_items_fields db _
        (fun r hr => hemp r (List.mem_filter.mp hr).1
          (by simpa using (List.mem_filter.mp hr).2))
    · intro item hitem
      rcases List.mem_filterMap.mp hitem with ⟨row, _, hrow⟩
      rcases Option.map_eq_some'.mp hrow with ⟨e, hfe, rfl⟩
      exact ⟨e, List.mem_of_find?_eq_some hfe,
        by simpa using List.find?_some hfe, rfl⟩

/-- Witness for C7: reading back run 1 after approving January 2025 on the
sample database. -/
theorem C7_get_payroll_witness :
    ((get_payroll sampleApproved 1 = none ↔
      ∀ p ∈ sampleApproved.payrolls, p.id ≠ 1) ∧
    (∀ run, sampleApproved.payrolls.find? (fun p => p.id == 1) = some run →
      ∃ res, get_payroll sampleApproved 1 = some res ∧
        res.month = run.month ∧ res.year = run.year ∧
        res.total_cost = run.total_cost ∧
        ((∀ r ∈ sampleApproved.payroll_items, r.payroll_id = 1 →
            ∃ e ∈ sampleApproved.employees, e.id = r.employee_id) →
          res.items.map (fun item =>
            (item.employee_id, item.gross, item.deductions, item.net)) =
          (sampleApproved.payroll_items.filter
            (fun r => r.payroll_id == 1)).map
            (fun r => (r.employee_id, r.gross, r.deductions, r.net))) ∧
        (∀ item ∈ res.items, ∃ e ∈ sampleApproved.employees,
          e.id = item.employee_id ∧ item.name = e.name))) :=
  C7_get_payroll sampleApproved 1

/-- C8 counterexample: the boundary does not validate status strings, so a
single `createEmployee` call with status `"banana"` yields a reachable
database holding a status outside `active`/`on_leave`/`exited`. -/
theorem C8_status_counterexample :
    ReachableWith (fun _ => True) (create_employee emptyDB bananaCreate).2 ∧
    ∃ e ∈ (create_employee emptyDB bananaCreate).2.employees,
      e.status ∉ validStatuses :=
  ⟨ReachableWith.create emptyDB bananaCreate ReachableWith.init
      (fun _ _ => trivial),
    by decide⟩

/-- C8 amended: the code does not restrict status values, but whenever every
caller-supplied status is in the documented vocabulary, every reachable
record's status is too, and a creation that omits status appends only
records with the default status `active`. -/
theorem C8_status_vocabulary (db : DB)
    (h : ReachableWith (fun s => s ∈ validStatuses) db) :
    (∀ e ∈ db.employees, e.status ∈ validStatuses) ∧
    (∀ (db2 : DB) (c : EmployeeCreate), c.status = none →
      ∀ e ∈ (create_employee db2 c).2.employees,
        e ∈ db2.employees ∨ e.status = "active") := by
  constructor
  · induction h with
    | init => intro e he; cases he
    | create db c hr hP ih =>
      intro e he
      have he2 : e ∈ db.employees ++
          [{ id := db.nextEmployeeId, name := c.name, role := c.role,
             department := c.department, salary := c.salary,
             bank_account := c.bank_account,
             status := c.status.getD "active",
             contract_path := c.contract_path }] := he
      rcases List.mem_append.mp he2 with hold | hnew
      · exact ih e hold
      · rcases List.mem_singleton.mp hnew with rfl
        cases hc : c.status with
        | none => simp [hc, validStatuses]
        | some s =>
          have := hP s hc
          simpa [hc] using this
    | update db i u hr hP ih =>
      intro e he
      rcases hg : get_employee db i with _ | cur
      · rw [update_employee, hg] at he
        exact ih e he
      · rw [update_employee, hg] at he
        rcases List.mem_map.mp he with ⟨x, hx, rfl⟩
        by_cases hid : (x.id == i) = true
        · rw [if_pos hid]
          show (applyUpdate cur u).status ∈ validStatuses
          cases hu : u.status with
          | none =>
            have hcur : cur ∈ db.employees := List.mem_of_find?_eq_some hg
            simpa [applyUpdate, hu] using ih cur hcur
          | some s => simpa [applyUpdate, hu] using hP s hu
        · rw [if_neg hid]
          exact ih x hx
    | terminate db i hr ih =>
      intro e he
      rcases List.mem_map.mp he with ⟨x, hx, rfl⟩
      by_cases hc : (x.id == i && x.status != "exited") = true
      · rw [if_pos hc]
        simp [validStatuses]
      · rw [if_neg hc]
        exact ih x hx
  · intro db2 c hnone e he
    have he2 : e ∈ db2.employees ++
        [{ id := db2.nextEmployeeId, name := c.name, role := c.role,
           department := c.department, salary := c.salary,
           bank_account := c.bank_account,
           status := c.status.getD "active",
           contract_path := c.contract_path }] := he
    rcases List.mem_append.mp he2 with hold | hnew
    · exact Or.inl hold
    · rcases List.mem_singleton.mp hnew with rfl
      right
      show c.status.getD "active" = "active"
      rw [hnone]
      rfl

/-- Witness for C8 amended: one creation with the status field omitted. -/
theorem C8_status_vocabulary_witness :
    ReachableWith (fun s => s ∈ validStatuses)
      (create_employee emptyDB sampleCreate).2 ∧
    ((∀ e ∈ (create_employee emptyDB sampleCreate).2.employees,
        e.status ∈ validStatuses) ∧
     (∀ (db2 : DB) (c : EmployeeCreate), c.status = none →
        ∀ e ∈ (create_employee db2 c).2.employees,
          e ∈ db2.employees ∨ e.status = "active")) :=
  ⟨ReachableWith.create emptyDB sampleCreate ReachableWith.init
      (fun s hs => by simp [sampleCreate] at hs),
   C8_status_vocabulary (create_employee emptyDB sampleCreate).2
     (ReachableWith.create emptyDB sampleCreate ReachableWith.init
       (fun s hs => by simp [sampleCreate] at hs))⟩

/-- C9 counterexample: `EmployeeCreate` carries no non-emptiness validator on
`name`, so the boundary accepts a creation body whose name is `""`. -/
theorem C9_name_counterexample :
    ValidCreate emptyNameCreate ∧ emptyNameCreate.name = "" :=
  ⟨le_refl 0, rfl⟩

/-- C9 amended: accepted inputs satisfy salary ≥ 0 (the empty name is
accepted, so non-emptiness is not guaranteed), and every record stored via
`createEmployee` or `updateEmployee` keeps salary ≥ 0 when the bodies passed
the boundary validation. -/
theorem C9_salary_nonneg (db : DB) (i : Nat) (c : EmployeeCreate)
    (u : EmployeeUpdate) (hc : ValidCreate c) (hu : ValidUpdate u)
    (hall : ∀ e ∈ db.employees, 0 ≤ e.salary) :
    0 ≤ c.salary ∧
    (∀ e ∈ (create_employee db c).2.employees, 0 ≤ e.salary) ∧
    (∀ e ∈ (update_employee db i u).2.employees, 0 ≤ e.salary) := by
  refine ⟨hc, ?_, ?_⟩
  · intro e he
    have he2 : e ∈ db.employees ++
        [{ id := db.nextEmployeeId, name := c.name, role := c.role,
           department := c.department, salary := c.salary,
           bank_account := c.bank_account,
           status := c.status.getD "active",
           contract_path := c.contract_path }] := he
    rcases List.mem_append.mp he2 with hold | hnew
    · exact hall e hold
    · rcases List.mem_singleton.mp hnew with rfl
      exact hc
  · intro e he
    rcases hg : get_employee db i with _ | cur
    · rw [update_employee, hg] at he
      exact hall e he
    · rw [update_employee, hg] at he
      rcases List.mem_map.mp he with ⟨x, hx, rfl⟩
      by_cases hid : (x.id == i) = true
      · rw [if_pos hid]
        show 0 ≤ (applyUpdate cur u).salary
        cases hs : u.salary with
        | none =>
          have hcur : cur ∈ db.employees := List.mem_of_find?_eq_some hg
          simpa [applyUpdate, hs] using hall cur hcur
        | some s => simpa [applyUpdate, hs] using hu s hs
      · rw [if_neg hid]
        exact hall x hx

/-- Witness for C9 amended on the sample database and bodies. -/
theorem C9_salary_nonneg_witness :
    ValidCreate sampleCreate ∧ ValidUpdate renameUpdate ∧
    (∀ e ∈ sampleDB.employees, 0 ≤ e.salary) ∧
    (0 ≤ sampleCreate.salary ∧
     (∀ e ∈ (create_employee sampleDB sampleCreate).2.employees,
        0 ≤ e.salary) ∧
     (∀ e ∈ (update_employee sampleDB 1 renameUpdate).2.employees,
        0 ≤ e.salary)) :=
  ⟨by show (0 : ℚ) ≤ 1500; norm_num,
   fun s hs => by simp [renameUpdate] at hs, by decide,
   C9_salary_nonneg sampleDB 1 sampleCreate renameUpdate
     (by show (0 : ℚ) ≤ 1500; norm_num)
     (fun s hs => by simp [renameUpdate] at hs) (by decide)⟩

end Workflow
